import Mathlib

/-!
Verification of the `spot-subaru` core components against their
natural-language specification.

The development shallowly embeds, in Lean:

* the collision-window state machine of `src/spot_subaru/util/ltcs.py`
  (class `Collisions`: `check_ltcs_proc`, `check_ltcs`,
  `add_ltcs_collisions`, `check_collisions`, `update`), and
* the table-update effect of `calc_rotations_cb` in
  `src/spot_subaru/plugins/RotCalc.py`, together with a model of the
  external candidate-selection routine `naoj.util.rot.calc_optimal_rotation`
  (whose source is not part of this repository).

Machine conventions: Unix timestamps and angle values (Python floats in
the source) are represented as `Int`; the ordering/branching logic under
scrutiny only relies on comparisons and additions, which agree with the
float behaviour on the values of interest.  `datetime.fromtimestamp` +
`strftime` is modelled as UTC clock-face extraction from seconds since
the epoch.  Fallible database access is represented by an
`Except Unit FetchRes` argument: `.ok` carries the four query results,
`.error` stands for an exception raised during the fetch.
-/

namespace SpotSubaru

/-! ## Decimal rendering helpers (model of Python string formatting) -/

/-- One decimal digit character (`0`–`9`); values `≥ 10` never occur. -/
def decimalDigit (n : Nat) : Char :=
  match n with
  | 0 => '0' | 1 => '1' | 2 => '2' | 3 => '3' | 4 => '4'
  | 5 => '5' | 6 => '6' | 7 => '7' | 8 => '8' | 9 => '9'
  | _ => '*'

/-- Digit list of a natural number (fuel-driven so that it reduces in the
kernel). -/
def natDigitsAux : Nat → Nat → List Char
  | 0, _ => []
  | fuel + 1, n =>
    if n < 10 then [decimalDigit n]
    else natDigitsAux fuel (n / 10) ++ [decimalDigit (n % 10)]

/-- Decimal rendering of a natural number, as Python `str` produces it. -/
def natToStr (n : Nat) : String :=
  ⟨natDigitsAux (n + 1) n⟩

/-- Decimal rendering of an integer, as Python `str` produces it. -/
def intToStr (i : Int) : String :=
  if i < 0 then "-" ++ natToStr i.natAbs else natToStr i.toNat

/-- Zero-padding to two places, as Python `f"{n:02d}"` for `0 ≤ n`. -/
def pad2 (n : Nat) : String :=
  if n < 10 then "0" ++ natToStr n else natToStr n

/-- Model of `datetime.fromtimestamp(t).strftime('%H:%M')` (clock face of
an epoch timestamp, UTC). -/
def fmtHM (t : Int) : String :=
  pad2 ((t.ediv 3600).emod 24).toNat ++ ":" ++ pad2 ((t.ediv 60).emod 60).toNat

/-- Model of the `HH:MM:SS` countdown formatting in `check_collisions`
(lines 302–305), applied when `0 < remain < 24*3600`. -/
def fmtHMS (remain : Int) : String :=
  let r := remain.toNat
  pad2 (r / 3600) ++ ":" ++ pad2 (r % 3600 / 60) ++ ":" ++ pad2 (r % 3600 % 60)

/-! ## Data model of `Collisions` (`src/spot_subaru/util/ltcs.py`) -/

/-- The `CollEvent` namedtuple (ltcs.py lines 37–39). -/
structure CollEvent where
  time_start_sse : Int
  time_stop_sse : Int
  telescope_str : String
  laser_has_priority : Bool
deriving Repr, DecidableEq

/-- The published status snapshot (the `Bunch` built in `__init__`,
lines 56–65, updated wholesale in `check_collisions` lines 315–324). -/
structure Status where
  remain_str : String
  remain_sec : Int
  impact : String
  collisions_str : String
  collisions_list_str : String
  collisions_status : String
  ltcs_collisions : List CollEvent
  ltcs_status : Nat
  ltcs_status_str : String
  ok_collisions : Bool
deriving Repr, DecidableEq

/-- The mutable state of a `Collisions` object that the polling logic
reads and writes. -/
structure CollState where
  ltcs_status : Nat
  ltcs_status_str : String
  ltcs_list_collisions : List CollEvent
  ok_collisions : Bool
  status : Status
deriving Repr, DecidableEq

/-- `ltcs_status_name_array` (line 26). -/
def ltcs_status_name_array : List String :=
  ["OPEN", "COLLISIONS", "PREDICTED", "DOWN", "ERROR", "UP"]

/-- Lookup in `ltcs_status_name_array`. -/
def statusName (n : Nat) : String :=
  ltcs_status_name_array.getD n ""

/-- Initial state built by `Collisions.__init__` (lines 25–33 and 56–65). -/
def initState : CollState :=
  { ltcs_status := 4
    ltcs_status_str := statusName 4
    ltcs_list_collisions := []
    ok_collisions := false
    status :=
      { remain_str := ""
        remain_sec := 0
        impact := ""
        collisions_str := ""
        collisions_list_str := ""
        collisions_status := "DOWN"
        ltcs_collisions := []
        ltcs_status := 3
        ltcs_status_str := "DOWN"
        ok_collisions := false } }

/-- One row of the `system_health` query result. -/
structure HealthRow where
  component : String
  timestamp : Int
deriving Repr, DecidableEq

/-- One row of the `collisions` / `sim_predict` / `predict` query results,
as consumed by `add_ltcs_collisions` (lines 185–194). -/
structure PredRow where
  laser : String
  involved_scope : String
  start_time : Int
  end_time : Int
  laser_has_priority : Int
deriving Repr, DecidableEq

/-- The result of one successful `fetch_ltcs` call (the four queries of
`query_dct1`, lines 49–53). -/
structure FetchRes where
  sys_health : List HealthRow
  collisions : List PredRow
  sim_predict : List PredRow
  predict : List PredRow
deriving Repr, DecidableEq

/-! ## `check_ltcs_proc`, `add_ltcs_collisions`, `check_ltcs` -/

/-- `check_ltcs_proc` (lines 164–183).  Note that, because of the
`UNDO!!!` comment at lines 179–181, BOTH branches set `ltcs_status = 5`
(UP): a stale component is logged but does not degrade the status. -/
def check_ltcs_proc (s : CollState) (current_sse : Int) (q : List HealthRow)
    (stale_threshold_sec : Int) : CollState :=
  let ok_ltcs := q.all fun r => !decide (stale_threshold_sec < current_sse - r.timestamp)
  if ok_ltcs then
    { s with ltcs_status := 5, ltcs_status_str := statusName 5 }
  else
    { s with ltcs_status := 5, ltcs_status_str := statusName 5 }

/-- How `add_ltcs_collisions` turns one result row into a `CollEvent`
(lines 187–193). -/
def predToEvent (r : PredRow) : CollEvent :=
  { time_start_sse := r.start_time
    time_stop_sse := r.end_time
    telescope_str := r.involved_scope
    laser_has_priority := r.laser_has_priority == 1 }

/-- `add_ltcs_collisions` (lines 185–194). -/
def add_ltcs_collisions (s : CollState) (q : List PredRow) : CollState :=
  { s with ltcs_list_collisions :=
      s.ltcs_list_collisions ++ q.map predToEvent }

/-- `check_ltcs` (lines 196–219). -/
def check_ltcs (s : CollState) (current_sse : Int) (q : FetchRes)
    (stale_threshold_sec : Int) : CollState :=
  let s := check_ltcs_proc s current_sse q.sys_health stale_threshold_sec
  if s.ltcs_status = 5 then
    let s := add_ltcs_collisions s q.collisions
    let s := add_ltcs_collisions s q.sim_predict
    add_ltcs_collisions s q.predict
  else s

/-! ## The reduction loop of `check_collisions` (lines 244–276) -/

/-- The loop variables of `check_collisions` (lines 244–249). -/
structure ScanState where
  n : Nat
  start_min : Int
  end_max : Int
  within : Bool
  list : String
  impact : String
deriving Repr, DecidableEq

/-- Initial loop variables (lines 225–229 and 244–247). -/
def scanInit (current_sse : Int) : ScanState :=
  { n := 0
    start_min := current_sse + 365 * 24 * 3600
    end_max := current_sse - 365 * 24 * 3600
    within := false
    list := ""
    impact := "" }

/-- The human-readable description of one retained event
(lines 254–262): `HH:MM -> HH:MM = Nmin`. -/
def entryStr (e : CollEvent) : String :=
  fmtHM e.time_start_sse ++ " -> " ++ fmtHM e.time_stop_sse ++ " = " ++
    intToStr ((e.time_stop_sse - e.time_start_sse).tdiv 60) ++ "min"

/-- One iteration of the `for curr_coll in self.ltcs_list_collisions`
loop (lines 250–276). -/
def scanStep (current_sse : Int) (st : ScanState) (e : CollEvent) : ScanState :=
  if current_sse < e.time_stop_sse then
    let n := st.n + 1
    let list := (if 1 < n then st.list ++ " // " else st.list) ++ entryStr e
    let p :=
      if e.time_start_sse < st.start_min ∧ current_sse < e.time_stop_sse then
        (e.time_start_sse, e.telescope_str)
      else (st.start_min, st.impact)
    if e.time_start_sse ≤ current_sse ∧ current_sse ≤ e.time_stop_sse then
      if st.end_max < e.time_stop_sse then
        { n := n, start_min := p.1, end_max := e.time_stop_sse, within := true,
          list := list, impact := e.telescope_str }
      else
        { n := n, start_min := p.1, end_max := st.end_max, within := true,
          list := list, impact := p.2 }
    else
      { n := n, start_min := p.1, end_max := st.end_max, within := st.within,
        list := list, impact := p.2 }
  else st

/-! ## `check_collisions` (lines 221–326) -/

/-- The final `self.status.update(...)` (lines 315–324): every field of
the snapshot is written. -/
def publish (s : CollState) (remain_str : String) (remain_sec : Int)
    (impact c_str c_list : String) : CollState :=
  { s with status :=
      { remain_str := remain_str
        remain_sec := remain_sec
        impact := impact
        collisions_str := c_str
        collisions_list_str := c_list
        collisions_status := s.ltcs_status_str
        ltcs_collisions := s.ltcs_list_collisions
        ltcs_status := s.ltcs_status
        ltcs_status_str := s.ltcs_status_str
        ok_collisions := s.ok_collisions } }

/-- The countdown-formatting tail of the non-empty branch
(lines 301–308) followed by the publication (lines 315–324). -/
def finishNonEmpty (s : CollState) (remain : Int) (c_str : String)
    (c_list : String) (impact : String) : CollState :=
  if 0 < remain ∧ remain < 24 * 3600 then
    let remain_str := fmtHMS remain
    publish s remain_str remain impact (c_str ++ remain_str ++ " with " ++ impact) c_list
  else
    publish s "" remain impact "" c_list

/-- `check_collisions` (lines 221–326). -/
def check_collisions (s : CollState) (current_sse : Int) : CollState :=
  let collisions_remain := current_sse + 365 * 24 * 3600
  if s.ltcs_status = 3 then
    let s := { s with ltcs_status_str := statusName 3, ok_collisions := false }
    publish s "" collisions_remain "" "" ""
  else if s.ltcs_list_collisions.length = 0 then
    let s := { s with ok_collisions := true, ltcs_status := 0,
                      ltcs_status_str := statusName 0 }
    publish s "" collisions_remain "" "" ""
  else
    let fin := s.ltcs_list_collisions.foldl (scanStep current_sse) (scanInit current_sse)
    if fin.within then
      let collisions_remain := fin.end_max - current_sse
      let s := { s with ok_collisions := false, ltcs_status := 1,
                        ltcs_status_str := statusName 1 }
      finishNonEmpty s collisions_remain " until " fin.list fin.impact
    else
      let collisions_remain := fin.start_min - current_sse
      if 0 < collisions_remain ∧ collisions_remain < 24 * 3600 then
        let s := { s with ok_collisions := true, ltcs_status := 2,
                          ltcs_status_str := statusName 2 }
        finishNonEmpty s collisions_remain " in " fin.list fin.impact
      else
        let s := { s with ok_collisions := true, ltcs_status := 0,
                          ltcs_status_str := statusName 0 }
        finishNonEmpty s collisions_remain "" "" fin.impact

/-! ## `update` (lines 328–358) -/

/-- `update` (lines 328–358).  The `Except` argument stands for the
outcome of `fetch_ltcs`: `.error` takes the `except` branch (lines
342–351), which updates only `ltcs_status`, `ltcs_status_str` and
`ok_collisions` in the published snapshot and returns. -/
def update (s : CollState) (time_sse : Int) (stale_threshold_sec : Int)
    (fetch : Except Unit FetchRes) : CollState :=
  let s := { s with ltcs_list_collisions := [] }
  match fetch with
  | .error _ =>
    let s := { s with ltcs_status := 4, ltcs_status_str := statusName 4 }
    { s with status :=
        { s.status with ltcs_status := 4, ltcs_status_str := statusName 4,
                        ok_collisions := false } }
  | .ok q =>
    let s := { s with ltcs_status := 3, ltcs_status_str := statusName 3 }
    let s := check_ltcs s time_sse q stale_threshold_sec
    check_collisions s time_sse

/-! ## Spec-side helper notions -/

/-- An event is retained by the loop iff it is not fully in the past
(line 252: `curr_coll.time_stop_sse > current_sse`). -/
def retainedB (t : Int) (e : CollEvent) : Bool :=
  decide (t < e.time_stop_sse)

/-- `current_time` falls inside a retained event:
start ≤ now ≤ stop with stop > now (lines 252 and 270). -/
def containsNow (t : Int) (e : CollEvent) : Bool :=
  decide (e.time_start_sse ≤ t) && decide (t ≤ e.time_stop_sse) &&
    decide (t < e.time_stop_sse)

/-- Maximum of a list of integers (`none` on the empty list). -/
def listMax : List Int → Option Int
  | [] => none
  | x :: xs => some (xs.foldl max x)

/-- Minimum of a list of integers (`none` on the empty list). -/
def listMin : List Int → Option Int
  | [] => none
  | x :: xs => some (xs.foldl min x)

/-- Concatenation of a list of strings. -/
def strJoin : List String → String
  | [] => ""
  | s :: l => s ++ strJoin l

/-- Join a list of strings with the `" // "` separator. -/
def sepJoin : List String → String
  | [] => ""
  | s :: l => s ++ strJoin (l.map fun x => " // " ++ x)

/-- Fuel-driven scanner counting non-overlapping occurrences of the
4-character separator `" // "`. -/
def countSepAux : Nat → List Char → Nat
  | 0, _ => 0
  | _ + 1, [] => 0
  | fuel + 1, c :: rest =>
    if List.take 4 (c :: rest) = [' ', '/', '/', ' '] then
      1 + countSepAux fuel (rest.drop 3)
    else countSepAux fuel rest

/-- Number of (non-overlapping) occurrences of the separator `" // "` in a
character list. -/
def countSep (l : List Char) : Nat :=
  countSepAux l.length l

/-- A `Collisions` state whose health check has passed (UP) and which
holds the given working event list; used for concrete evaluations. -/
def upStateWith (evs : List CollEvent) : CollState :=
  { initState with ltcs_status := 5, ltcs_status_str := "UP",
                   ltcs_list_collisions := evs }

/-! ## Characterization of the reduction loop -/

/-- A fully-past event leaves the loop state unchanged. -/
theorem scanStep_not_retained (t : Int) (st : ScanState) (e : CollEvent)
    (h : retainedB t e = false) : scanStep t st e = st := by
  unfold scanStep
  rw [if_neg]
  simpa [retainedB] using h

/-- The `end_max` loop variable records the running maximum of the stop
times of the events that contain `current_sse`. -/
theorem scanStep_end_max (t : Int) (st : ScanState) (e : CollEvent) :
    (scanStep t st e).end_max =
      if containsNow t e then max st.end_max e.time_stop_sse else st.end_max := by
  unfold scanStep containsNow
  by_cases hr : t < e.time_stop_sse
  · by_cases hc : e.time_start_sse ≤ t ∧ t ≤ e.time_stop_sse
    · by_cases hm : st.end_max < e.time_stop_sse
      · simp [hr, hc.1, hc.2, hm, max_eq_right (le_of_lt hm)]
      · simp [hr, hc.1, hc.2, hm, max_eq_left (le_of_not_lt hm)]
    · have : ¬e.time_start_sse ≤ t ∨ ¬t ≤ e.time_stop_sse := by tauto
      rcases this with h | h <;> simp [hr, hc, h]
  · simp [hr]

/-- The `within` loop variable records whether some event so far contains
`current_sse`. -/
theorem scanStep_within (t : Int) (st : ScanState) (e : CollEvent) :
    (scanStep t st e).within = (st.within || containsNow t e) := by
  unfold scanStep containsNow
  by_cases hr : t < e.time_stop_sse
  · by_cases hc : e.time_start_sse ≤ t ∧ t ≤ e.time_stop_sse
    · by_cases hm : st.end_max < e.time_stop_sse <;> simp [hr, hc.1, hc.2, hm]
    · have : ¬e.time_start_sse ≤ t ∨ ¬t ≤ e.time_stop_sse := by tauto
      rcases this with h | h <;> simp [hr, hc, h]
  · simp [hr]

/-- The `start_min` loop variable records the running minimum of the
start times of the retained events. -/
theorem scanStep_start_min (t : Int) (st : ScanState) (e : CollEvent) :
    (scanStep t st e).start_min =
      if retainedB t e then min st.start_min e.time_start_sse
      else st.start_min := by
  unfold scanStep retainedB
  by_cases hr : t < e.time_stop_sse
  · have hmin : min st.start_min e.time_start_sse =
        if e.time_start_sse < st.start_min then e.time_start_sse
        else st.start_min := by
      by_cases hs : e.time_start_sse < st.start_min
      · simp [hs, min_eq_right (le_of_lt hs)]
      · simp [hs, min_eq_left (le_of_not_lt hs)]
    by_cases hc : e.time_start_sse ≤ t ∧ t ≤ e.time_stop_sse
    · by_cases hm : st.end_max < e.time_stop_sse <;>
        by_cases hs : e.time_start_sse < st.start_min <;>
        simp [hr, hc, hm, hs, hmin]
    · by_cases hs : e.time_start_sse < st.start_min <;> simp [hr, hc, hs, hmin]
  · simp [hr]

/-- The `n` loop counter counts the retained events. -/
theorem scanStep_n (t : Int) (st : ScanState) (e : CollEvent) :
    (scanStep t st e).n = st.n + (if retainedB t e then 1 else 0) := by
  unfold scanStep retainedB
  by_cases hr : t < e.time_stop_sse
  · by_cases hc : e.time_start_sse ≤ t ∧ t ≤ e.time_stop_sse
    · by_cases hm : st.end_max < e.time_stop_sse <;> simp [hr, hc, hm]
    · simp [hr, hc]
  · simp [hr]

/-- The human-readable `collisions_list` accumulator after one step. -/
theorem scanStep_list (t : Int) (st : ScanState) (e : CollEvent) :
    (scanStep t st e).list =
      if retainedB t e then
        (if 1 < st.n + 1 then st.list ++ " // " else st.list) ++ entryStr e
      else st.list := by
  unfold scanStep retainedB
  by_cases hr : t < e.time_stop_sse
  · by_cases hc : e.time_start_sse ≤ t ∧ t ≤ e.time_stop_sse
    · by_cases hm : st.end_max < e.time_stop_sse <;> simp [hr, hc, hm]
    · simp [hr, hc]
  · simp [hr]

/-- Folding the loop body over the full event list is the same as folding
it over the retained events. -/
theorem scan_filter (t : Int) (evs : List CollEvent) : ∀ st : ScanState,
    evs.foldl (scanStep t) st = (evs.filter (retainedB t)).foldl (scanStep t) st := by
  induction evs with
  | nil => intro st; rfl
  | cons e evs ih =>
    intro st
    by_cases h : retainedB t e
    · simp [List.filter_cons, h, List.foldl_cons, ih]
    · simp only [Bool.not_eq_true] at h
      simp [List.filter_cons, h, List.foldl_cons, ih,
            scanStep_not_retained t st e h]

/-- The final `end_max` is the fold of `max` over the stop times of the
events containing `current_sse`, seeded with the loop's initial value. -/
theorem scan_end_max (t : Int) (evs : List CollEvent) : ∀ st : ScanState,
    (evs.foldl (scanStep t) st).end_max =
      ((evs.filter (containsNow t)).map (fun e => e.time_stop_sse)).foldl
        max st.end_max := by
  induction evs with
  | nil => intro st; rfl
  | cons e evs ih =>
    intro st
    by_cases h : containsNow t e
    · simp [List.filter_cons, h, List.foldl_cons, ih, scanStep_end_max]
    · simp only [Bool.not_eq_true] at h
      simp [List.filter_cons, h, List.foldl_cons, ih, scanStep_end_max]

/-- The final `within` flag is set iff some event contains `current_sse`. -/
theorem scan_within (t : Int) (evs : List CollEvent) : ∀ st : ScanState,
    (evs.foldl (scanStep t) st).within =
      (st.within || evs.any (containsNow t)) := by
  induction evs with
  | nil => intro st; simp
  | cons e evs ih =>
    intro st
    simp [List.foldl_cons, ih, scanStep_within, Bool.or_assoc]

/-- The final `start_min` is the fold of `min` over the start times of
the retained events, seeded with the loop's initial value. -/
theorem scan_start_min (t : Int) (evs : List CollEvent) : ∀ st : ScanState,
    (evs.foldl (scanStep t) st).start_min =
      ((evs.filter (retainedB t)).map (fun e => e.time_start_sse)).foldl
        min st.start_min := by
  induction evs with
  | nil => intro st; rfl
  | cons e evs ih =>
    intro st
    by_cases h : retainedB t e
    · simp [List.filter_cons, h, List.foldl_cons, ih, scanStep_start_min]
    · simp only [Bool.not_eq_true] at h
      simp [List.filter_cons, h, List.foldl_cons, ih, scanStep_start_min]

/-! ## Folded minima / maxima -/

/-- A seed below the first element drops out of a `max` fold. -/
theorem foldl_max_of_le (a x : Int) (xs : List Int) (h : a ≤ x) :
    (x :: xs).foldl max a = xs.foldl max x := by
  simp [List.foldl_cons, max_eq_right h]

/-- `min`-fold with a lowered seed. -/
theorem foldl_min_assoc (xs : List Int) : ∀ a b : Int,
    xs.foldl min (min a b) = min a (xs.foldl min b) := by
  induction xs with
  | nil => intro a b; rfl
  | cons c xs ih =>
    intro a b
    simp only [List.foldl_cons, min_assoc, ih]

/-- A strict lower bound on all entries bounds the `min` fold. -/
theorem foldl_min_lt (c : Int) (xs : List Int) : ∀ x : Int,
    c < x → (∀ y ∈ xs, c < y) → c < xs.foldl min x := by
  induction xs with
  | nil => intro x hx _; exact hx
  | cons y ys ih =>
    intro x hx hall
    simp only [List.foldl_cons]
    exact ih (min x y) (lt_min hx (hall y (by simp)))
      fun z hz => hall z (by simp [hz])

/-! ## Counting separators -/

/-- `countSepAux` does not depend on the fuel once it covers the list
length. -/
theorem countSepAux_fuel : ∀ (fuel fuel' : Nat) (l : List Char),
    l.length ≤ fuel → l.length ≤ fuel' →
    countSepAux fuel l = countSepAux fuel' l := by
  intro fuel
  induction fuel with
  | zero =>
    intro fuel' l hl hl'
    rw [Nat.le_zero] at hl
    rw [List.length_eq_zero] at hl
    subst hl
    cases fuel' <;> rfl
  | succ f ih =>
    intro fuel' l hl hl'
    cases l with
    | nil => cases fuel' <;> rfl
    | cons c rest =>
      cases fuel' with
      | zero => simp at hl'
      | succ f' =>
        simp only [countSepAux]
        simp only [List.length_cons, Nat.succ_le_succ_iff] at hl hl'
        split
        · have h3 : (rest.drop 3).length ≤ f := by
            simp only [List.length_drop]; omega
          have h3' : (rest.drop 3).length ≤ f' := by
            simp only [List.length_drop]; omega
          rw [ih f' (rest.drop 3) h3 h3']
        · exact ih f' rest hl hl'

/-- Unfolding `countSep` on a non-separator head. -/
theorem countSep_cons_not_sep (c : Char) (rest : List Char)
    (h : ¬List.take 4 (c :: rest) = [' ', '/', '/', ' ']) :
    countSep (c :: rest) = countSep rest := by
  unfold countSep
  simp only [List.length_cons, countSepAux, if_neg h]

/-- Unfolding `countSep` on a separator head. -/
theorem countSep_sep_prefix (rest : List Char) :
    countSep (' ' :: '/' :: '/' :: ' ' :: rest) = 1 + countSep rest := by
  unfold countSep
  simp only [List.length_cons, countSepAux]
  rw [if_pos (by simp)]
  congr 1
  simp only [List.drop_succ_cons, List.drop_zero]
  exact countSepAux_fuel (rest.length + 1 + 1 + 1) rest.length rest
    (by omega) le_rfl

/-- A character list without `'/'` contains no separator. -/
theorem countSep_eq_zero : ∀ l : List Char, (∀ c ∈ l, c ≠ '/') →
    countSep l = 0 := by
  intro l
  induction l with
  | nil => intro h; rfl
  | cons c rest ih =>
    intro h
    have hns : ¬List.take 4 (c :: rest) = [' ', '/', '/', ' '] := by
      intro heq
      have hmem : '/' ∈ List.take 4 (c :: rest) := by rw [heq]; simp
      exact h '/' (List.take_subset 4 (c :: rest) hmem) rfl
    rw [countSep_cons_not_sep c rest hns]
    exact ih fun x hx => h x (by simp [hx])

/-- Prepending a slash-free chunk and one separator adds exactly one
occurrence. -/
theorem countSep_append_sep : ∀ l rest : List Char, (∀ c ∈ l, c ≠ '/') →
    countSep (l ++ ' ' :: '/' :: '/' :: ' ' :: rest) = 1 + countSep rest := by
  intro l
  induction l with
  | nil => intro rest _; exact countSep_sep_prefix rest
  | cons c l₂ ih =>
    intro rest h
    have hns : ¬List.take 4 (c :: (l₂ ++ ' ' :: '/' :: '/' :: ' ' :: rest)) =
        [' ', '/', '/', ' '] := by
      intro heq
      have h1 : (c :: (l₂ ++ ' ' :: '/' :: '/' :: ' ' :: rest)).get? 1 =
          some '/' := by
        have := congrArg (fun x => x.get? 1) heq
        simpa [List.get?_take (by omega : (1 : Nat) < 4)] using this
      simp only [List.get?_cons_succ] at h1
      cases l₂ with
      | nil => simp [List.get?] at h1
      | cons d l₃ =>
        simp [List.get?] at h1
        exact h d (by simp) h1
    rw [List.cons_append, countSep_cons_not_sep _ _ hns]
    exact ih rest fun x hx => h x (by simp [hx])

/-- Chaining slash-free entries with separators counts the entries. -/
theorem countSep_chain : ∀ (entries : List String) (e : String),
    (∀ c ∈ e.data, c ≠ '/') →
    (∀ s ∈ entries, ∀ c ∈ s.data, c ≠ '/') →
    countSep (e.data ++ (strJoin (entries.map fun x => " // " ++ x)).data) =
      entries.length := by
  intro entries
  induction entries with
  | nil =>
    intro e he _
    simpa [strJoin] using countSep_eq_zero e.data he
  | cons f fs ih =>
    intro e he hall
    simp only [List.map_cons, strJoin, String.data_append, List.cons_append,
      List.nil_append, List.append_assoc]
    rw [countSep_append_sep e.data _ he]
    rw [ih f (hall f (by simp)) fun s hs => hall s (by simp [hs])]
    simp [Nat.add_comm]

/-- `countSep` of a `sepJoin` of slash-free entries is the number of
entries minus one. -/
theorem countSep_sepJoin (entries : List String)
    (h : ∀ s ∈ entries, ∀ c ∈ s.data, c ≠ '/') :
    countSep (sepJoin entries).data = entries.length - 1 := by
  cases entries with
  | nil => rfl
  | cons e fs =>
    simp only [sepJoin, String.data_append]
    rw [countSep_chain fs e (h e (by simp)) fun s hs => h s (by simp [hs])]
    simp

/-! ## The event description strings contain no slash -/

/-- Decimal digits are not `'/'`. -/
theorem decimalDigit_ne_slash (d : Nat) : decimalDigit d ≠ '/' := by
  unfold decimalDigit
  split <;> decide

/-- No character of a digit list is `'/'`. -/
theorem natDigitsAux_ne_slash : ∀ (fuel n : Nat), ∀ c ∈ natDigitsAux fuel n,
    c ≠ '/' := by
  intro fuel
  induction fuel with
  | zero => intro n c hc; simp [natDigitsAux] at hc
  | succ f ih =>
    intro n c hc
    simp only [natDigitsAux] at hc
    split at hc
    · simp at hc
      simp [hc, decimalDigit_ne_slash]
    · rcases List.mem_append.mp hc with h | h
      · exact ih (n / 10) c h
      · simp at h
        simp [h, decimalDigit_ne_slash]

/-- `natToStr` produces no `'/'`. -/
theorem natToStr_ne_slash (n : Nat) : ∀ c ∈ (natToStr n).data, c ≠ '/' :=
  natDigitsAux_ne_slash (n + 1) n

/-- Appending slash-free strings gives a slash-free string. -/
theorem data_append_ne_slash {a b : String}
    (ha : ∀ c ∈ a.data, c ≠ '/') (hb : ∀ c ∈ b.data, c ≠ '/') :
    ∀ c ∈ (a ++ b).data, c ≠ '/' := by
  intro c hc
  rw [String.data_append] at hc
  rcases List.mem_append.mp hc with h | h
  · exact ha c h
  · exact hb c h

/-- `intToStr` produces no `'/'`. -/
theorem intToStr_ne_slash (i : Int) : ∀ c ∈ (intToStr i).data, c ≠ '/' := by
  unfold intToStr
  split
  · exact data_append_ne_slash (by decide) (natToStr_ne_slash _)
  · exact natToStr_ne_slash _

/-- `pad2` produces no `'/'`. -/
theorem pad2_ne_slash (n : Nat) : ∀ c ∈ (pad2 n).data, c ≠ '/' := by
  unfold pad2
  split
  · exact data_append_ne_slash (by decide) (natToStr_ne_slash _)
  · exact natToStr_ne_slash _

/-- `fmtHM` produces no `'/'`. -/
theorem fmtHM_ne_slash (t : Int) : ∀ c ∈ (fmtHM t).data, c ≠ '/' := by
  unfold fmtHM
  refine data_append_ne_slash ?_ (pad2_ne_slash _)
  exact data_append_ne_slash (pad2_ne_slash _) (by decide)

/-- The per-event description `HH:MM -> HH:MM = Nmin` contains no `'/'`. -/
theorem entryStr_ne_slash (e : CollEvent) : ∀ c ∈ (entryStr e).data, c ≠ '/' := by
  unfold entryStr
  refine data_append_ne_slash ?_ (by decide)
  refine data_append_ne_slash ?_ (intToStr_ne_slash _)
  refine data_append_ne_slash ?_ (by decide)
  refine data_append_ne_slash ?_ (fmtHM_ne_slash _)
  exact data_append_ne_slash (fmtHM_ne_slash _) (by decide)

/-- Filtering drops an element on which the predicate is `false`. -/
theorem filter_cons_false {α : Type} (p : α → Bool) (a : α) (l : List α)
    (h : p a = false) : (a :: l).filter p = l.filter p := by
  simp [List.filter_cons, h]

/-! ## The list string built by the loop -/

/-- Once the counter is positive, every further retained event appends
`" // "` followed by its description. -/
theorem scan_list_pos (t : Int) (evs : List CollEvent) : ∀ st : ScanState,
    1 ≤ st.n →
    (evs.foldl (scanStep t) st).list =
      st.list ++ strJoin ((evs.filter (retainedB t)).map
        fun e => " // " ++ entryStr e) := by
  induction evs with
  | nil => intro st _; simp [strJoin]
  | cons e evs ih =>
    intro st h
    by_cases hr : retainedB t e
    · have hn : (scanStep t st e).n = st.n + 1 := by
        rw [scanStep_n]; simp [hr]
      have hl : (scanStep t st e).list = st.list ++ " // " ++ entryStr e := by
        rw [scanStep_list]
        simp only [hr, if_true]
        rw [if_pos (by omega)]
      simp only [List.filter_cons_of_pos hr, List.map_cons, List.foldl_cons]
      rw [ih (scanStep t st e) (by rw [hn]; omega), hl]
      simp [strJoin, String.append_assoc]
    · simp only [Bool.not_eq_true] at hr
      rw [List.foldl_cons, scanStep_not_retained t st e hr,
        filter_cons_false (retainedB t) e evs hr]
      exact ih st h

/-- Starting from the loop's initial accumulator, the built list string
is the `" // "`-join of the retained events' descriptions. -/
theorem scan_list_zero (t : Int) (evs : List CollEvent) : ∀ st : ScanState,
    st.n = 0 → st.list = "" →
    (evs.foldl (scanStep t) st).list =
      sepJoin ((evs.filter (retainedB t)).map entryStr) := by
  induction evs with
  | nil => intro st _ hl; simpa [sepJoin] using hl
  | cons e evs ih =>
    intro st hn hl
    by_cases hr : retainedB t e
    · have hn1 : (scanStep t st e).n = 1 := by
        rw [scanStep_n]; simp [hr, hn]
      have hl1 : (scanStep t st e).list = entryStr e := by
        rw [scanStep_list]
        simp only [hr, if_true, hn]
        rw [if_neg (by omega), hl]
        simp
      simp only [List.filter_cons_of_pos hr, List.map_cons, List.foldl_cons]
      rw [scan_list_pos t evs (scanStep t st e) (by rw [hn1]), hl1]
      simp [sepJoin, List.map_map, Function.comp_def]
    · simp only [Bool.not_eq_true] at hr
      rw [List.foldl_cons, scanStep_not_retained t st e hr,
        filter_cons_false (retainedB t) e evs hr]
      exact ih st hn hl

/-! ## Basic facts about the health check -/

/-- Both branches of `check_ltcs_proc` set the state to UP, so the result
does not depend on staleness at all. -/
theorem check_ltcs_proc_eq (s : CollState) (t : Int) (q : List HealthRow)
    (th : Int) :
    check_ltcs_proc s t q th =
      { s with ltcs_status := 5, ltcs_status_str := statusName 5 } :=
  ite_self _

/-! ## Theorems -/

/-- **C1.** For every poll in which the health check passed (state not
DOWN), if `current_time` falls inside at least one retained event
(start ≤ now ≤ stop with stop > now), the published snapshot has status
COLLISIONS (`ltcs_status = 1`), `ok_collisions = false`, and
`remain_sec` equal to the latest stop time among the events containing
`current_time`, minus `current_time` (ltcs.py lines 250–284). -/
theorem claim_C1 (s : CollState) (t m : Int)
    (hdown : s.ltcs_status ≠ 3)
    (hmax : listMax ((s.ltcs_list_collisions.filter (containsNow t)).map
        (fun e => e.time_stop_sse)) = some m) :
    (check_collisions s t).status.ltcs_status = 1 ∧
      (check_collisions s t).status.ok_collisions = false ∧
      (check_collisions s t).status.remain_sec = m - t := by
  rcases hfil : s.ltcs_list_collisions.filter (containsNow t) with _ | ⟨y, ys⟩
  · rw [hfil] at hmax; simp [listMax] at hmax
  · have hymem : y ∈ s.ltcs_list_collisions.filter (containsNow t) := by
      rw [hfil]; exact List.mem_cons_self y ys
    have hyc : containsNow t y = true := List.of_mem_filter hymem
    have hyprop : y.time_start_sse ≤ t ∧ t ≤ y.time_stop_sse ∧
        t < y.time_stop_sse := by
      simpa [containsNow, and_assoc] using hyc
    have hne : s.ltcs_list_collisions.length ≠ 0 := by
      intro h
      rw [List.length_eq_zero] at h
      rw [h] at hfil
      simp at hfil
    have hwithin :
        (s.ltcs_list_collisions.foldl (scanStep t) (scanInit t)).within = true := by
      rw [scan_within]
      have : s.ltcs_list_collisions.any (containsNow t) = true :=
        List.any_eq_true.mpr ⟨y, List.mem_of_mem_filter hymem, hyc⟩
      simp [scanInit, this]
    have hend :
        (s.ltcs_list_collisions.foldl (scanStep t) (scanInit t)).end_max = m := by
      rw [scan_end_max, hfil]
      simp only [List.map_cons, scanInit]
      rw [foldl_max_of_le _ _ _ (by omega : t - 365 * 24 * 3600 ≤ y.time_stop_sse)]
      rw [hfil] at hmax
      simpa [listMax] using hmax
    unfold check_collisions
    simp only [if_neg hdown, if_neg hne, hwithin, if_pos, if_true]
    unfold finishNonEmpty publish
    split_ifs <;> simp [hend]

/-- Witness for C1: one event spanning `[t-10, t+10]` at `t = 1000`
yields COLLISIONS, `ok_collisions = false`, countdown 10 s. -/
theorem claim_C1_witness :
    (check_collisions (upStateWith [⟨990, 1010, "keck1", false⟩]) 1000).status.ltcs_status = 1 ∧
      (check_collisions (upStateWith [⟨990, 1010, "keck1", false⟩]) 1000).status.ok_collisions = false ∧
      (check_collisions (upStateWith [⟨990, 1010, "keck1", false⟩]) 1000).status.remain_sec = 1010 - 1000 :=
  claim_C1 (upStateWith [⟨990, 1010, "keck1", false⟩]) 1000 1010
    (by decide) (by decide)

/-- **C2, counterexample.** The claim states that when no retained event
contains `current_time`, `remain_sec` equals the earliest upcoming start
minus `current_time`.  With one event starting two years from now
(earliest upcoming start 63072000 at `t = 0`), the published
`remain_sec` is the loop's sentinel `365 * 24 * 3600 = 31536000`, not
63072000: the countdown is capped by the sentinel initialization of
`collisions_start_min` (ltcs.py lines 225 and 244). -/
theorem claim_C2_counterexample :
    (upStateWith [⟨63072000, 63072600, "keck1", false⟩]).ltcs_status ≠ 3 ∧
      (∀ e ∈ (upStateWith [⟨63072000, 63072600, "keck1", false⟩]).ltcs_list_collisions,
        containsNow 0 e = false) ∧
      listMin (((upStateWith [⟨63072000, 63072600, "keck1", false⟩]).ltcs_list_collisions.filter
          (retainedB 0)).map (fun e => e.time_start_sse)) = some 63072000 ∧
      (check_collisions (upStateWith [⟨63072000, 63072600, "keck1", false⟩]) 0).status.remain_sec ≠
        63072000 - 0 := by
  refine ⟨by decide, by decide, by decide, ?_⟩
  decide

/-- **C2, amended.** When the health check passed, the working list is
non-empty and `current_time` lies inside no retained event, `remain_sec`
equals the earliest upcoming event start minus `current_time`, except
that it is capped at `365 * 24 * 3600` seconds (the sentinel initial
value of the loop minimum); the capped gap is always positive, and if it
is under 24 h the snapshot has status PREDICTED (`ltcs_status = 2`) with
`ok_collisions = true`, otherwise status OPEN (`ltcs_status = 0`) with
`ok_collisions = true` and a blanked countdown string
(ltcs.py lines 285–299). -/
theorem claim_C2_amended (s : CollState) (t m : Int)
    (hdown : s.ltcs_status ≠ 3)
    (hnotin : ∀ e ∈ s.ltcs_list_collisions, containsNow t e = false)
    (hmin : listMin ((s.ltcs_list_collisions.filter (retainedB t)).map
        (fun e => e.time_start_sse)) = some m) :
    (check_collisions s t).status.remain_sec = min (t + 365 * 24 * 3600) m - t ∧
      (min (t + 365 * 24 * 3600) m - t < 24 * 3600 →
        (check_collisions s t).status.ltcs_status = 2 ∧
          (check_collisions s t).status.ok_collisions = true) ∧
      (¬min (t + 365 * 24 * 3600) m - t < 24 * 3600 →
        (check_collisions s t).status.ltcs_status = 0 ∧
          (check_collisions s t).status.ok_collisions = true ∧
          (check_collisions s t).status.remain_str = "") := by
  rcases hfil : s.ltcs_list_collisions.filter (retainedB t) with _ | ⟨y, ys⟩
  · rw [hfil] at hmin; simp [listMin] at hmin
  · have hne : s.ltcs_list_collisions.length ≠ 0 := by
      intro h
      rw [List.length_eq_zero] at h
      rw [h] at hfil
      simp at hfil
    have hnone : s.ltcs_list_collisions.any (containsNow t) = false := by
      simp only [List.any_eq_false]
      intro e he
      simp [hnotin e he]
    have hwithin :
        (s.ltcs_list_collisions.foldl (scanStep t) (scanInit t)).within = false := by
      rw [scan_within]
      simp [scanInit, hnone]
    have hstarts : ∀ x ∈ (s.ltcs_list_collisions.filter (retainedB t)).map
        (fun e => e.time_start_sse), t < x := by
      intro x hx
      rcases List.mem_map.mp hx with ⟨e, he, rfl⟩
      have her : retainedB t e = true := List.of_mem_filter he
      have hem : e ∈ s.ltcs_list_collisions := List.mem_of_mem_filter he
      have hstop : t < e.time_stop_sse := by simpa [retainedB] using her
      have hnc := hnotin e hem
      simp only [containsNow, Bool.and_eq_false_iff, decide_eq_false_iff_not,
        not_le, not_lt] at hnc
      rcases hnc with (h | h) | h
      · exact h
      · omega
      · omega
    have hm : m = (ys.map (fun e => e.time_start_sse)).foldl min y.time_start_sse := by
      rw [hfil] at hmin
      simpa [listMin] using hmin.symm
    have hmgt : t < m := by
      rw [hm]
      apply foldl_min_lt
      · exact hstarts y.time_start_sse (by rw [hfil]; simp)
      · intro z hz
        apply hstarts
        rw [hfil]
        simp only [List.map_cons, List.mem_cons]
        exact Or.inr hz
    have hsmin :
        (s.ltcs_list_collisions.foldl (scanStep t) (scanInit t)).start_min =
          min (t + 365 * 24 * 3600) m := by
      rw [scan_start_min, hfil]
      simp only [List.map_cons, List.foldl_cons, scanInit]
      rw [foldl_min_assoc, ← hm]
    have hpos : 0 < min (t + 365 * 24 * 3600) m - t := by
      have : t < min (t + 365 * 24 * 3600) m := lt_min (by omega) hmgt
      omega
    unfold check_collisions
    simp only [if_neg hdown, if_neg hne, hwithin, Bool.false_eq_true, if_false, hsmin]
    by_cases hlt : min (t + 365 * 24 * 3600) m - t < 24 * 3600
    · have hcond : 0 < min (t + 365 * 24 * 3600) m - t ∧
          min (t + 365 * 24 * 3600) m - t < 24 * 3600 := ⟨hpos, hlt⟩
      simp only [if_pos hcond]
      unfold finishNonEmpty publish
      simp only [if_pos hcond]
      simp [hlt]
      omega
    · have hcond : ¬(0 < min (t + 365 * 24 * 3600) m - t ∧
          min (t + 365 * 24 * 3600) m - t < 24 * 3600) := by
        intro h; exact hlt h.2
      simp only [if_neg hcond]
      unfold finishNonEmpty publish
      simp only [if_neg hcond]
      simp [hlt]
      omega

/-- Witness for the amended C2: one event starting at `t + 3600` yields
PREDICTED with `ok_collisions = true` and `remain_sec = 3600`. -/
theorem claim_C2_amended_witness :
    (check_collisions (upStateWith [⟨4600, 4700, "keck1", false⟩]) 1000).status.remain_sec =
        min (1000 + 365 * 24 * 3600) 4600 - 1000 ∧
      (check_collisions (upStateWith [⟨4600, 4700, "keck1", false⟩]) 1000).status.ltcs_status = 2 ∧
      (check_collisions (upStateWith [⟨4600, 4700, "keck1", false⟩]) 1000).status.ok_collisions = true := by
  have h := claim_C2_amended (upStateWith [⟨4600, 4700, "keck1", false⟩]) 1000 4600
    (by decide) (by decide) (by decide)
  exact ⟨h.1, h.2.1 (by decide)⟩

/-- **C9.** For every working event list with `N ≥ 1` retained events
(stop time strictly greater than `current_time`), the human-readable
collisions list built by the loop (ltcs.py lines 244–262) joins the `N`
entries `HH:MM -> HH:MM = Nmin` and contains exactly `N − 1` occurrences
of the separator `" // "`. -/
theorem claim_C9 (evs : List CollEvent) (t : Int)
    (_h : 1 ≤ (evs.filter (retainedB t)).length) :
    (evs.foldl (scanStep t) (scanInit t)).list =
        sepJoin ((evs.filter (retainedB t)).map entryStr) ∧
      countSep ((evs.foldl (scanStep t) (scanInit t)).list).data =
        (evs.filter (retainedB t)).length - 1 := by
  have hjoin := scan_list_zero t evs (scanInit t) rfl rfl
  refine ⟨hjoin, ?_⟩
  rw [hjoin]
  rw [countSep_sepJoin ((evs.filter (retainedB t)).map entryStr) ?_]
  · simp
  · intro str hstr
    rcases List.mem_map.mp hstr with ⟨e, _, rfl⟩
    exact entryStr_ne_slash e

/-- Witness for C9: two retained events give one `" // "` separator. -/
theorem claim_C9_witness :
    1 ≤ (([⟨990, 1010, "keck1", false⟩, ⟨995, 1500, "keck2", false⟩] :
        List CollEvent).filter (retainedB 1000)).length ∧
      countSep ((([⟨990, 1010, "keck1", false⟩, ⟨995, 1500, "keck2", false⟩] :
          List CollEvent).foldl (scanStep 1000) (scanInit 1000)).list).data = 1 := by
  refine ⟨by decide, ?_⟩
  have h := (claim_C9 [⟨990, 1010, "keck1", false⟩, ⟨995, 1500, "keck2", false⟩]
    1000 (by decide)).2
  rw [h]
  decide

/-- **C3.** For every poll in which the health check passed (state not
DOWN) and the working collision-event list is empty, the published
snapshot has status OPEN (`ltcs_status = 0`) and `ok_collisions = true`
(ltcs.py lines 235–239). -/
theorem claim_C3 (s : CollState) (t : Int)
    (hdown : s.ltcs_status ≠ 3) (hnil : s.ltcs_list_collisions = []) :
    (check_collisions s t).status.ltcs_status = 0 ∧
      (check_collisions s t).status.ok_collisions = true := by
  simp [check_collisions, publish, hdown, hnil]

/-- Witness for C3 at a concrete UP state with no events. -/
theorem claim_C3_witness :
    (check_collisions (upStateWith []) 1000).status.ltcs_status = 0 ∧
      (check_collisions (upStateWith []) 1000).status.ok_collisions = true :=
  claim_C3 (upStateWith []) 1000 (by decide) (by decide)

/-- **C4.** For every poll in which the database fetch raises an
exception, `update` catches it (the embedded `update` is total: the
`except` branch of lines 342–351 is taken) and the published snapshot has
status ERROR (`ltcs_status = 4`) and `ok_collisions = false`. -/
theorem claim_C4 (s : CollState) (t th : Int) :
    (update s t th (.error ())).status.ltcs_status = 4 ∧
      (update s t th (.error ())).status.ok_collisions = false := by
  simp [update]

/-- **C8.** For every health-check result in which some component's
timestamp is stale (`current_time - last_update > stale_threshold_sec`),
the internal health state is still marked UP (`ltcs_status = 5`) — due to
the `UNDO!!!` branch at lines 179–182 — so staleness never yields DOWN
(`ltcs_status = 3`). -/
theorem claim_C8 (s : CollState) (t : Int) (q : List HealthRow) (th : Int)
    (_hstale : ∃ r ∈ q, th < t - r.timestamp) :
    (check_ltcs_proc s t q th).ltcs_status = 5 ∧
      (check_ltcs_proc s t q th).ltcs_status_str = "UP" ∧
      (check_ltcs_proc s t q th).ltcs_status ≠ 3 := by
  rw [check_ltcs_proc_eq]
  refine ⟨rfl, rfl, ?_⟩
  simp

/-- Witness for C8: a concrete stale component (last update at 0, now
1000, threshold 300). -/
theorem claim_C8_witness :
    (check_ltcs_proc initState 1000 [{ component := "comp1", timestamp := 0 }] 300).ltcs_status = 5 ∧
      (check_ltcs_proc initState 1000 [{ component := "comp1", timestamp := 0 }] 300).ltcs_status_str = "UP" ∧
      (check_ltcs_proc initState 1000 [{ component := "comp1", timestamp := 0 }] 300).ltcs_status ≠ 3 :=
  claim_C8 initState 1000 [{ component := "comp1", timestamp := 0 }] 300
    ⟨{ component := "comp1", timestamp := 0 }, by decide, by decide⟩

/-! ## Wholesale snapshot replacement (`update` / `check_collisions`) -/

/-- `check_ltcs` after a successful fetch: the health check marks UP and
the three query results are appended to the (previously emptied) working
list. -/
theorem check_ltcs_eq (s : CollState) (t : Int) (q : FetchRes) (th : Int) :
    check_ltcs s t q th =
      { s with ltcs_status := 5, ltcs_status_str := statusName 5,
               ltcs_list_collisions := s.ltcs_list_collisions ++
                 ((q.collisions.map predToEvent ++ q.sim_predict.map predToEvent) ++
                   q.predict.map predToEvent) } := by
  unfold check_ltcs
  rw [check_ltcs_proc_eq]
  simp [add_ltcs_collisions, List.append_assoc]

/-- The snapshot published by `check_collisions` depends only on the
entering `ltcs_status`, `ltcs_status_str`, working list and the time:
every snapshot field is freshly written (ltcs.py lines 315–324). -/
theorem check_collisions_status_congr (s₁ s₂ : CollState) (t : Int)
    (hst : s₁.ltcs_status = s₂.ltcs_status)
    (hstr : s₁.ltcs_status_str = s₂.ltcs_status_str)
    (hl : s₁.ltcs_list_collisions = s₂.ltcs_list_collisions) :
    (check_collisions s₁ t).status = (check_collisions s₂ t).status := by
  obtain ⟨a₁, b₁, c₁, d₁, e₁⟩ := s₁
  obtain ⟨a₂, b₂, c₂, d₂, e₂⟩ := s₂
  simp only at hst hstr hl
  subst hst hstr hl
  unfold check_collisions finishNonEmpty publish
  split_ifs <;> rfl

/-- **C7, counterexample.** The claim states that every field of the
snapshot is replaced on every outcome, including the error outcome.  Two
states that differ only in the previous snapshot's `remain_sec` still
differ in `remain_sec` after an error-outcome `update`: the error branch
(ltcs.py lines 342–351) writes only `ltcs_status`, `ltcs_status_str`
and `ok_collisions`, so `remain_sec` (and six further fields) survive
from the previous snapshot. -/
theorem claim_C7_counterexample :
    (update { initState with status := { initState.status with remain_sec := 42 } }
        0 300 (.error ())).status.remain_sec ≠
      (update { initState with status := { initState.status with remain_sec := 7 } }
        0 300 (.error ())).status.remain_sec := by
  decide

/-- **C7, amended.** On a tick whose fetch succeeds, the snapshot is
recomputed wholesale: it does not depend on any part of the previous
state, so every field is freshly written.  On the error outcome, exactly
`ltcs_status`, `ltcs_status_str` and `ok_collisions` are replaced and
the remaining seven fields keep their previous values. -/
theorem claim_C7_amended :
    (∀ (s₁ s₂ : CollState) (t th : Int) (q : FetchRes),
        (update s₁ t th (.ok q)).status = (update s₂ t th (.ok q)).status) ∧
      (∀ (s : CollState) (t th : Int),
        (update s t th (.error ())).status =
          { s.status with ltcs_status := 4, ltcs_status_str := "ERROR",
                          ok_collisions := false }) := by
  constructor
  · intro s₁ s₂ t th q
    show (check_collisions (check_ltcs
        { s₁ with ltcs_list_collisions := [], ltcs_status := 3,
                  ltcs_status_str := statusName 3 } t q th) t).status =
      (check_collisions (check_ltcs
        { s₂ with ltcs_list_collisions := [], ltcs_status := 3,
                  ltcs_status_str := statusName 3 } t q th) t).status
    rw [check_ltcs_eq, check_ltcs_eq]
    exact check_collisions_status_congr _ _ t rfl rfl rfl
  · intro s t th
    rfl

/-- The C10 invariant: `ok_collisions` holds iff the status is OPEN (0)
or PREDICTED (2). -/
def okIffOpenOrPredicted (st : Status) : Prop :=
  st.ok_collisions = true ↔ (st.ltcs_status = 0 ∨ st.ltcs_status = 2)

/-- `check_collisions` always publishes a snapshot satisfying the C10
invariant, whatever state it starts from. -/
theorem check_collisions_invariant (s : CollState) (t : Int) :
    okIffOpenOrPredicted (check_collisions s t).status := by
  unfold okIffOpenOrPredicted check_collisions finishNonEmpty publish
  generalize List.foldl (scanStep t) (scanInit t) s.ltcs_list_collisions = fin
  by_cases h1 : s.ltcs_status = 3
  · simp [h1]
  · simp only [if_neg h1]
    by_cases h2 : s.ltcs_list_collisions.length = 0
    · simp [h2]
    · simp only [if_neg h2]
      by_cases hw : fin.within = true
      · simp only [if_pos hw]
        by_cases hc : t < fin.end_max ∧ fin.end_max - t < 86400
        · simp [hc]
        · simp [hc]
      · simp only [if_neg hw]
        by_cases hc : t < fin.start_min ∧ fin.start_min - t < 86400
        · simp [hc]
        · simp [hc]

/-- A single `update` always publishes a snapshot satisfying the C10
invariant, whatever state it starts from. -/
theorem update_invariant (s : CollState) (t th : Int)
    (f : Except Unit FetchRes) :
    okIffOpenOrPredicted (update s t th f).status := by
  cases f with
  | error e => simp [update, okIffOpenOrPredicted]
  | ok q => exact check_collisions_invariant _ t

/-- **C10.** Invariant of every published snapshot, from construction
through every completed `update` call: `ok_collisions` is true iff
`ltcs_status` is 0 (OPEN) or 2 (PREDICTED); with status COLLISIONS (1),
DOWN (3) or ERROR (4) it is false. -/
theorem claim_C10 (ticks : List (Int × Int × Except Unit FetchRes)) :
    okIffOpenOrPredicted
      ((ticks.foldl (fun s tk => update s tk.1 tk.2.1 tk.2.2) initState).status) := by
  have hgen : ∀ (l : List (Int × Int × Except Unit FetchRes)) (s : CollState),
      okIffOpenOrPredicted s.status →
      okIffOpenOrPredicted
        ((l.foldl (fun s tk => update s tk.1 tk.2.1 tk.2.2) s).status) := by
    intro l
    induction l with
    | nil => intro s hs; exact hs
    | cons tk l ih =>
      intro s _
      exact ih (update s tk.1 tk.2.1 tk.2.2) (update_invariant s tk.1 tk.2.1 tk.2.2)
  exact hgen ticks initState (by simp [initState, okIffOpenOrPredicted])

/-! ## RotCalc (`src/spot_subaru/plugins/RotCalc.py`) -/

/-- Is the whole `[start, stop]` span within the hard limits
`[min_deg, max_deg]`? -/
def rotFits (start stop min_deg max_deg : Int) : Bool :=
  decide (min_deg ≤ start) && decide (start ≤ max_deg) &&
    decide (min_deg ≤ stop) && decide (stop ≤ max_deg)

/-- Modelled from the spec: `calc_optimal_rotation` is imported from the
external `naoj.util.rot` package, whose source is not part of this
repository (RotCalc.py lines 270–276 and 297–303 only call it).  Per
spec §4.1 step 4: select the candidate pair whose `start` is numerically
closest to the current angle while the entire `[start, stop]` span stays
within `[min, max]`; if neither candidate fits, the result is
out-of-range, modelled as `none` (the caller must report an
error/warning, not silently clamp). -/
def calc_optimal_rotation (rot1_start rot1_stop rot2_start rot2_stop
    cur_deg min_deg max_deg : Int) : Option (Int × Int) :=
  let fit1 := rotFits rot1_start rot1_stop min_deg max_deg
  let fit2 := rotFits rot2_start rot2_stop min_deg max_deg
  if fit1 then
    if fit2 then
      if (rot1_start - cur_deg).natAbs ≤ (rot2_start - cur_deg).natAbs then
        some (rot1_start, rot1_stop)
      else some (rot2_start, rot2_stop)
    else some (rot1_start, rot1_stop)
  else if fit2 then some (rot2_start, rot2_stop)
  else none

/-- **C5.** The optimal-rotation selection never returns a pair whose
start or stop lies outside `[lo, hi]`: any returned pair fits the
limits, and the result is `none` exactly when neither candidate fits
(infeasibility is signalled rather than an out-of-range pair returned). -/
theorem claim_C5 (r1s r1e r2s r2e cur lo hi : Int) :
    (∀ p q : Int, calc_optimal_rotation r1s r1e r2s r2e cur lo hi = some (p, q) →
        rotFits p q lo hi = true) ∧
      (calc_optimal_rotation r1s r1e r2s r2e cur lo hi = none ↔
        (rotFits r1s r1e lo hi = false ∧ rotFits r2s r2e lo hi = false)) := by
  unfold calc_optimal_rotation
  by_cases h1 : rotFits r1s r1e lo hi
  · by_cases h2 : rotFits r2s r2e lo hi
    · constructor
      · intro p q hpq
        simp only [h1, h2, if_true] at hpq
        split at hpq <;> (cases hpq; first | exact h1 | exact h2)
      · simp [h1, h2]
        split <;> simp
    · constructor
      · intro p q hpq
        simp only [h1, if_true, Bool.not_eq_true] at hpq
        rw [if_neg (by simp [h2])] at hpq
        cases hpq
        exact h1
      · simp [h1, h2]
  · by_cases h2 : rotFits r2s r2e lo hi
    · constructor
      · intro p q hpq
        rw [if_neg (by simp [h1]), if_pos (by simp [h2])] at hpq
        cases hpq
        exact h2
      · rw [if_neg (by simp [h1]), if_pos (by simp [h2])]
        simp [h1, h2]
    · constructor
      · intro p q hpq
        rw [if_neg (by simp [h1]), if_neg (by simp [h2])] at hpq
        cases hpq
      · rw [if_neg (by simp [h1]), if_neg (by simp [h2])]
        simp only [Bool.not_eq_true] at h1 h2
        simp [h1, h2]

/-- Witness for C5: with candidate 1 inside `[-270, 270]` and candidate
2 far outside, the selection returns candidate 1, which fits. -/
theorem claim_C5_witness : rotFits 10 20 (-270) 270 = true :=
  (claim_C5 10 20 5000 6000 0 (-270) 270).1 10 20 (by decide)

/-- Python-dict insertion into an association list (assignment
`self.tbl_dct[key] = row`): replace the value at an existing key, or
append the new binding. -/
def dictInsert {α : Type} : List (String × α) → String → α → List (String × α)
  | [], k, v => [(k, v)]
  | (k₂, v₂) :: rest, k, v =>
    if k₂ = k then (k, v) :: rest
    else (k₂, v₂) :: dictInsert rest k v

/-- The table effect of one invocation of `calc_rotations_cb`
(RotCalc.py lines 232–234 and 307–332): the table and widget are CLEARED
(`self.w.rot_tbl.clear(); self.tbl_dct = dict()`) and then the single
computed row is stored under its `HH:MM:SS` start-time label.  The
astronomical content of the row is computed via external ephemeris
collaborators and is abstracted as the `row` argument. -/
def calc_rotations_cb_table {α : Type} (tbl_dct : List (String × α))
    (time_str : String) (row : α) : List (String × α) :=
  let tbl_dct := ([] : List (String × α))
  dictInsert tbl_dct time_str row

/-- **C6, counterexample.** The claim states that rows from previous
invocations remain in the table.  Invoking the operation at label
`"21:10:00"` and then at `"21:10:05"` leaves no row under
`"21:10:00"`: `calc_rotations_cb` clears `tbl_dct` at the start of every
invocation (RotCalc.py lines 233–234). -/
theorem claim_C6_counterexample :
    (calc_rotations_cb_table
        (calc_rotations_cb_table ([] : List (String × Nat)) "21:10:00" 1)
        "21:10:05" 2).lookup "21:10:00" = none := by
  decide

/-- **C6, amended.** Each invocation first clears the table and then
adds the computed row keyed by its `HH:MM:SS` start-time label, so after
any non-empty sequence of invocations the table holds exactly the single
row of the most recent invocation; rows from previous invocations do not
remain. -/
theorem claim_C6_amended {α : Type} (tbl : List (String × α)) (k : String)
    (v : α) (rest : List (String × α)) :
    rest.foldl (fun t kv => calc_rotations_cb_table t kv.1 kv.2)
        (calc_rotations_cb_table tbl k v) =
      [rest.getLastD (k, v)] := by
  induction rest generalizing tbl k v with
  | nil => rfl
  | cons kv rest ih =>
    simp only [List.foldl_cons, List.getLastD_cons]
    exact ih (calc_rotations_cb_table tbl k v) kv.1 kv.2

end SpotSubaru
